import Mathlib

/-!
Verification of the `ShowMnemonic` component
(`src/nym-wallet/src/components/Accounts/ShowMnemonic.tsx`).

The component keeps two `useState` cells typed `string | undefined`
(`showMnemonic` and `mnemonic`), a `useEffect` on `[showMnemonic]` that
either starts an asynchronous `fetchMnemonic` lookup or clears `mnemonic`,
and a render producing a clickable label and an optional mnemonic text
node.

We embed `string | undefined` as `Option String` with explicit JavaScript
truthiness (`undefined` and the empty string are falsy), the event loop as
a step function over click and lookup-completion events, and a promise
outcome as an inductive with a `rejected` constructor so that the
never-rejects property is a real statement about the code.
-/

namespace ShowMnemonic

/-- An account record of the mocked accounts table imported from `./mocks`:
a name and a mnemonic string. -/
structure Account where
  name : String
  mnemonic : String
deriving DecidableEq

/-- The outcome of a JavaScript `Promise<string>`: settled by resolving
with a string, or by rejecting. -/
inductive POutcome where
  | resolved (v : String)
  | rejected
deriving DecidableEq

/-- `fetchMnemonic` from the source: it searches the accounts table with
`accounts.find((acc) => acc.name === accountName)`; when a record is found
the executor schedules resolution with `account.mnemonic` via a zero-delay
`setTimeout`, otherwise it resolves with the sentinel `"n/a"` at once. The
executor only ever calls `res`, so the promise settles by resolution in
both branches; we record the outcome. -/
def fetchMnemonic (accounts : List Account) (accountName : String) : POutcome :=
  match accounts.find? (fun acc => acc.name == accountName) with
  | some account => .resolved account.mnemonic
  | none => .resolved "n/a"

/-- The string with which the `fetchMnemonic` promise resolves. -/
def fetchValue (accounts : List Account) (accountName : String) : String :=
  match accounts.find? (fun acc => acc.name == accountName) with
  | some account => account.mnemonic
  | none => "n/a"

/-- JavaScript truthiness of a `string | undefined` value: `undefined` and
the empty string are falsy, every other string is truthy. -/
def truthy : Option String → Bool
  | none => false
  | some s => decide (s ≠ "")

/-- The immutable inputs of the component: the `accountName` prop and the
accounts table imported from `./mocks`. -/
structure Config where
  accountName : String
  accounts : List Account

/-- The state of the component: the two `useState` cells
(`string | undefined`) plus the number of in-flight `fetchMnemonic`
lookups (each one was started by the effect for the fixed `accountName`
prop). -/
structure State where
  showMnemonic : Option String
  mnemonic : Option String
  pending : Nat
deriving DecidableEq

/-- The body of the `useEffect` on `[showMnemonic]`: when `showMnemonic`
is truthy it starts `getMnemonic()` (one more in-flight lookup); otherwise
it runs `setMnemonic(undefined)`. -/
def runEffect (s : State) : State :=
  if truthy s.showMnemonic then { s with pending := s.pending + 1 }
  else { s with mnemonic := none }

/-- The updater passed to `setShowMnemonic` by the click handler:
`(show) => (!show ? accountName : undefined)`. -/
def clickUpdater (accountName : String) (sh : Option String) : Option String :=
  if truthy sh then none else some accountName

/-- A DOM click event, tracking whether `stopPropagation` has been called
on it. -/
structure ClickEvent where
  propagationStopped : Bool
deriving DecidableEq

/-- The `onClick` handler of the label: it calls `e.stopPropagation()` and
applies the `setShowMnemonic` updater; it returns the mutated event and
the new `showMnemonic` value. -/
def onClick (accountName : String) (e : ClickEvent) (sh : Option String) :
    ClickEvent × Option String :=
  ({ e with propagationStopped := true }, clickUpdater accountName sh)

/-- One click on the label, as processed by React: the updater computes the
new `showMnemonic`; when it differs from the old value React re-renders and
re-runs the effect (its dependency array `[showMnemonic]` changed); when
the updater returns the identical value React bails out and the effect does
not re-run. -/
def clickStep (cfg : Config) (s : State) : State :=
  let newShow := clickUpdater cfg.accountName s.showMnemonic
  if newShow = s.showMnemonic then s
  else runEffect { s with showMnemonic := newShow }

/-- Completion of one in-flight lookup: the awaited `fetchMnemonic`
promise resolves and `setMnemonic` stores its value unconditionally. A
no-op when no lookup is in flight. -/
def resolveStep (cfg : Config) (s : State) : State :=
  if s.pending = 0 then s
  else { s with pending := s.pending - 1,
                mnemonic := some (fetchValue cfg.accounts cfg.accountName) }

/-- The events the component reacts to: a user click on the label, or the
completion of an in-flight lookup. -/
inductive Event where
  | click
  | resolve
deriving DecidableEq

/-- One step of the event loop. -/
def step (cfg : Config) (s : State) : Event → State
  | .click => clickStep cfg s
  | .resolve => resolveStep cfg s

/-- The state at mount: both `useState` cells hold `undefined` and no
lookup is in flight. The mount-time effect run takes the falsy branch and
sets `mnemonic` to `undefined`, leaving this state unchanged. -/
def init : State := { showMnemonic := none, mnemonic := none, pending := 0 }

/-- The state reached from the mount state by a sequence of events. -/
def run (cfg : Config) (events : List Event) : State :=
  events.foldl (step cfg) init

/-- The render output: the label text and the optional secondary mnemonic
text node. -/
structure Render where
  label : String
  mnemonicNode : Option String
deriving DecidableEq

/-- The render function: the label is the template literal interpolating
`showMnemonic ? "Hide" : "Show"` before `" mnemonic"`, and the secondary
node `mnemonic && <Typography>` is rendered exactly when the stored
`mnemonic` is truthy (a non-empty string). -/
def render (s : State) : Render :=
  { label := (if truthy s.showMnemonic then "Hide" else "Show") ++ " mnemonic"
    mnemonicNode := if truthy s.mnemonic then s.mnemonic else none }

/-! Helper lemmas. -/

/-- A truthy `string | undefined` value is not `undefined`. -/
lemma truthy_ne_none (o : Option String) (h : truthy o = true) : o ≠ none := by
  cases o with
  | none => simp [truthy] at h
  | some v => simp

/-- The effect never mutates `showMnemonic`. -/
lemma runEffect_showMnemonic (s : State) :
    (runEffect s).showMnemonic = s.showMnemonic := by
  unfold runEffect
  split <;> rfl

/-- After a click, `showMnemonic` holds exactly the value computed by the
updater, whether or not React bailed out. -/
lemma clickStep_showMnemonic_eq (cfg : Config) (s : State) :
    (clickStep cfg s).showMnemonic = clickUpdater cfg.accountName s.showMnemonic := by
  simp only [clickStep]
  split
  · next heq => exact heq.symm
  · exact runEffect_showMnemonic _

/-- A click from a truthy reveal state sets `showMnemonic` to `undefined`,
clears `mnemonic` through the effect, and leaves the in-flight lookups
untouched. -/
lemma clickStep_of_truthy (cfg : Config) (s : State)
    (h : truthy s.showMnemonic = true) :
    clickStep cfg s = ⟨none, none, s.pending⟩ := by
  have h1 : clickUpdater cfg.accountName s.showMnemonic = none := by
    simp [clickUpdater, h]
  have h2 : ¬((none : Option String) = s.showMnemonic) :=
    fun hc => truthy_ne_none s.showMnemonic h hc.symm
  simp [clickStep, h1, h2, runEffect, truthy]

/-- With a non-empty `accountName`, the reveal click followed by the hide
click leaves the component hidden, with no stored mnemonic and one
lookup still in flight. -/
lemma run_click_click_of_ne (cfg : Config) (h : cfg.accountName ≠ "") :
    run cfg [.click, .click] = ⟨none, none, 1⟩ := by
  have ht : truthy (some cfg.accountName) = true := by simp [truthy, h]
  have s1 : step cfg init .click = ⟨some cfg.accountName, none, 1⟩ := by
    simp [step, clickStep, clickUpdater, init, truthy, runEffect, ht, h]
  have s2 : step cfg ⟨some cfg.accountName, none, 1⟩ .click = ⟨none, none, 1⟩ := by
    have h3 := clickStep_of_truthy cfg ⟨some cfg.accountName, none, 1⟩ ht
    simpa [step] using h3
  simp [run, List.foldl_cons, List.foldl_nil, s1, s2]

/-- The invariant that pins the component down when `accountName` is the
empty string: the reveal cell is `undefined` or the empty string, no
mnemonic is stored and no lookup is in flight. -/
def emptyInv (s : State) : Prop :=
  (s.showMnemonic = none ∨ s.showMnemonic = some "") ∧
  s.mnemonic = none ∧ s.pending = 0

/-- With `accountName` the empty string, every step preserves `emptyInv`. -/
lemma emptyInv_step (accounts : List Account) (s : State) (e : Event)
    (h : emptyInv s) : emptyInv (step ⟨"", accounts⟩ s e) := by
  obtain ⟨hshow, hm, hp⟩ := h
  cases e with
  | click =>
    rcases hshow with h1 | h1 <;>
      simp [step, clickStep, clickUpdater, runEffect, truthy, emptyInv, h1, hm, hp]
  | resolve =>
    simp [step, resolveStep, hp, emptyInv, hshow, hm]

/-- With `accountName` the empty string, every reachable state satisfies
`emptyInv`. -/
lemma emptyInv_run (accounts : List Account) (events : List Event) :
    emptyInv (run ⟨"", accounts⟩ events) := by
  have key : ∀ (evs : List Event) (s : State), emptyInv s →
      emptyInv (evs.foldl (step ⟨"", accounts⟩) s) := by
    intro evs
    induction evs with
    | nil => intro s hs; exact hs
    | cons e es ih => intro s hs; exact ih _ (emptyInv_step accounts s e hs)
  exact key events init ⟨Or.inl rfl, rfl, rfl⟩

/-- The two steps of the event loop depend on the configuration only
through the `accountName` prop and the value its lookup resolves with. -/
lemma step_congr (c1 c2 : Config) (hn : c1.accountName = c2.accountName)
    (hf : fetchValue c1.accounts c1.accountName = fetchValue c2.accounts c2.accountName)
    (s : State) (e : Event) : step c1 s e = step c2 s e := by
  cases e with
  | click => simp [step, clickStep, clickUpdater, hn]
  | resolve => simp only [step, resolveStep, hf]

/-! Claims. -/

/-- Claim C1: for every account name matched by a record of the accounts
table, `fetchMnemonic` resolves with exactly that record mnemonic; for
every account name with no matching record it resolves with the literal
string `"n/a"`. -/
theorem fetchMnemonic_lookup_spec (accounts : List Account) (accountName : String) :
    (∀ a : Account, accounts.find? (fun acc => acc.name == accountName) = some a →
      fetchMnemonic accounts accountName = .resolved a.mnemonic) ∧
    (accounts.find? (fun acc => acc.name == accountName) = none →
      fetchMnemonic accounts accountName = .resolved "n/a") := by
  constructor
  · intro a h
    simp [fetchMnemonic, h]
  · intro h
    simp [fetchMnemonic, h]

/-- Witness for C1: the scenario accounts table holding alice, queried for
alice and for ghost. -/
theorem fetchMnemonic_lookup_spec_witness :
    ([⟨"alice", "apple banana cherry"⟩] : List Account).find?
        (fun acc => acc.name == "alice") = some ⟨"alice", "apple banana cherry"⟩ ∧
    fetchMnemonic [⟨"alice", "apple banana cherry"⟩] "alice" =
      .resolved "apple banana cherry" ∧
    fetchMnemonic [⟨"alice", "apple banana cherry"⟩] "ghost" = .resolved "n/a" := by
  refine ⟨by decide, ?_, ?_⟩
  · exact (fetchMnemonic_lookup_spec [⟨"alice", "apple banana cherry"⟩] "alice").1
      ⟨"alice", "apple banana cherry"⟩ (by decide)
  · exact (fetchMnemonic_lookup_spec [⟨"alice", "apple banana cherry"⟩] "ghost").2
      (by decide)

/-- Counterexample to C2: after the same click-then-completion sequence,
the component with the empty `accountName` still shows the initial render
(label `"Show mnemonic"`, no mnemonic node), while a non-empty identifier
with no matching record shows `"Hide mnemonic"` and `"n/a"`: the empty
string does not behave like an identifier with no matching record, and the
sentinel is never displayed. -/
theorem empty_accountName_differs_from_missing :
    render (run ⟨"", []⟩ [.click, .resolve]) = ⟨"Show mnemonic", none⟩ ∧
    render (run ⟨"ghost", []⟩ [.click, .resolve]) = ⟨"Hide mnemonic", some "n/a"⟩ := by
  exact ⟨by decide, by decide⟩

/-- Claim C2 (amended): the empty-string prop is accepted, but clicking
sets the reveal cell to the empty string, which is falsy, so the component
never reveals: along every event sequence the render stays at the label
`"Show mnemonic"` with no mnemonic node, and the sentinel `"n/a"` is never
displayed. -/
theorem empty_accountName_never_reveals (accounts : List Account)
    (events : List Event) :
    render (run ⟨"", accounts⟩ events) = ⟨"Show mnemonic", none⟩ := by
  obtain ⟨hshow, hm, hp⟩ := emptyInv_run accounts events
  rcases hshow with h1 | h1 <;> simp [render, truthy, h1, hm]

/-- Claim C3: whenever a click moves a truthy (revealed) state to hidden,
`showMnemonic` becomes `undefined`, the stored mnemonic is cleared in the
same step, and every in-flight lookup is left in flight (the clearing does
not wait for it). -/
theorem hide_click_clears_mnemonic (cfg : Config) (s : State)
    (h : truthy s.showMnemonic = true) :
    (clickStep cfg s).showMnemonic = none ∧
    (clickStep cfg s).mnemonic = none ∧
    (clickStep cfg s).pending = s.pending := by
  rw [clickStep_of_truthy cfg s h]
  exact ⟨rfl, rfl, rfl⟩

/-- Witness for C3: hiding while a mnemonic is displayed and two lookups
are in flight clears the mnemonic and keeps both lookups pending. -/
theorem hide_click_clears_mnemonic_witness :
    truthy (some "alice") = true ∧
    ((clickStep ⟨"alice", []⟩ ⟨some "alice", some "apple banana cherry", 2⟩).mnemonic = none ∧
     (clickStep ⟨"alice", []⟩ ⟨some "alice", some "apple banana cherry", 2⟩).pending = 2) :=
  ⟨by decide,
   (hide_click_clears_mnemonic ⟨"alice", []⟩
      ⟨some "alice", some "apple banana cherry", 2⟩ (by decide)).2⟩

/-- Claim C4: with a non-empty `accountName`, reveal then hide before the
lookup resolves leaves the lookup in flight (not cancelled) with the
mnemonic cleared; when the lookup later resolves it unconditionally stores
its value, so a mnemonic value is present while the reveal state is
absent. -/
theorem stale_resolve_overwrites_mnemonic (cfg : Config)
    (h : cfg.accountName ≠ "") :
    (run cfg [.click, .click]).showMnemonic = none ∧
    (run cfg [.click, .click]).mnemonic = none ∧
    (run cfg [.click, .click]).pending = 1 ∧
    (run cfg [.click, .click, .resolve]).showMnemonic = none ∧
    (run cfg [.click, .click, .resolve]).mnemonic =
      some (fetchValue cfg.accounts cfg.accountName) := by
  have h2 : run cfg [.click, .click] = ⟨none, none, 1⟩ :=
    run_click_click_of_ne cfg h
  have s3 : step cfg ⟨none, none, 1⟩ .resolve =
      ⟨none, some (fetchValue cfg.accounts cfg.accountName), 0⟩ := by
    simp [step, resolveStep]
  have h3 : run cfg [.click, .click, .resolve] =
      ⟨none, some (fetchValue cfg.accounts cfg.accountName), 0⟩ := by
    have : run cfg [.click, .click, .resolve] =
        step cfg (run cfg [.click, .click]) .resolve := by
      simp [run, List.foldl_cons, List.foldl_nil]
    rw [this, h2, s3]
  rw [h2, h3]
  exact ⟨rfl, rfl, rfl, rfl, rfl⟩

/-- Witness for C4: the ghost account with an empty table ends hidden with
the stale value `"n/a"` stored. -/
theorem stale_resolve_overwrites_mnemonic_witness :
    ("ghost" : String) ≠ "" ∧
    (run ⟨"ghost", []⟩ [.click, .click, .resolve]).showMnemonic = none ∧
    (run ⟨"ghost", []⟩ [.click, .click, .resolve]).mnemonic = some "n/a" := by
  refine ⟨by decide, ?_, ?_⟩
  · exact (stale_resolve_overwrites_mnemonic ⟨"ghost", []⟩ (by decide)).2.2.2.1
  · exact (stale_resolve_overwrites_mnemonic ⟨"ghost", []⟩ (by decide)).2.2.2.2

/-- Claim C5: two consecutive clicks from the initial state (reveal, then
hide) return the component to a render output identical to the initial
render: label `"Show mnemonic"` and no mnemonic node. -/
theorem double_click_restores_initial_render (cfg : Config) :
    render (run cfg [.click, .click]) = render init := by
  by_cases h : cfg.accountName = ""
  · obtain ⟨an, accs⟩ := cfg
    have h2 : an = "" := h
    subst h2
    rfl
  · rw [run_click_click_of_ne cfg h]
    rfl

/-- Counterexample to C6: with the empty `accountName`, one click makes
the reveal state present (it holds the empty string), yet the label still
reads `"Show mnemonic"`, not `"Hide mnemonic"`. -/
theorem label_show_despite_present_state :
    (run ⟨"", []⟩ [.click]).showMnemonic = some "" ∧
    (render (run ⟨"", []⟩ [.click])).label = "Show mnemonic" := by
  exact ⟨by decide, by decide⟩

/-- Claim C6 (amended): in every state the label is exactly
`"Hide mnemonic"` when the reveal state is truthy (present and non-empty)
and exactly `"Show mnemonic"` otherwise (absent, or present but empty); no
other label text ever appears. -/
theorem label_text_spec (s : State) :
    (render s).label =
      (if truthy s.showMnemonic then "Hide mnemonic" else "Show mnemonic") ∧
    ((render s).label = "Show mnemonic" ∨ (render s).label = "Hide mnemonic") := by
  have hS : ("Show" ++ " mnemonic" : String) = "Show mnemonic" := rfl
  have hH : ("Hide" ++ " mnemonic" : String) = "Hide mnemonic" := rfl
  cases h : truthy s.showMnemonic <;> simp [render, h, hS, hH]

/-- Counterexample to C7: the reachable state in which the reveal cell
holds the empty string is present, yet a click leaves it present (still
the empty string) instead of setting it to absent. -/
theorem click_on_present_empty_state_stays_present :
    (run ⟨"", []⟩ [.click]).showMnemonic = some "" ∧
    (run ⟨"", []⟩ [.click, .click]).showMnemonic = some "" ∧
    (run ⟨"", []⟩ [.click, .click]).showMnemonic ≠ none := by
  exact ⟨by decide, by decide, by decide⟩

/-- Claim C7 (amended): the click handler stops propagation and toggles on
truthiness: when the current reveal state is truthy the click sets it to
absent, and when it is falsy (absent, or present but the empty string) the
click sets it to `accountName`, independent of which account was
previously revealed. -/
theorem click_toggle_spec (cfg : Config) (s : State) (e : ClickEvent) :
    (onClick cfg.accountName e s.showMnemonic).1.propagationStopped = true ∧
    (truthy s.showMnemonic = true → (clickStep cfg s).showMnemonic = none) ∧
    (truthy s.showMnemonic = false →
      (clickStep cfg s).showMnemonic = some cfg.accountName) := by
  refine ⟨rfl, fun h => ?_, fun h => ?_⟩
  · rw [clickStep_showMnemonic_eq]
    simp [clickUpdater, h]
  · rw [clickStep_showMnemonic_eq]
    simp [clickUpdater, h]

/-- Witness for C7: clicking from the mount state with the alice prop
stops propagation and reveals alice. -/
theorem click_toggle_spec_witness :
    truthy init.showMnemonic = false ∧
    (clickStep ⟨"alice", []⟩ init).showMnemonic = some "alice" ∧
    (onClick "alice" ⟨false⟩ init.showMnemonic).1.propagationStopped = true := by
  refine ⟨by decide, ?_, ?_⟩
  · exact (click_toggle_spec ⟨"alice", []⟩ init ⟨false⟩).2.2 (by decide)
  · exact (click_toggle_spec ⟨"alice", []⟩ init ⟨false⟩).1

/-- Claim C8: for every account identifier the `fetchMnemonic` promise
never rejects — it always resolves, a missing record resolving with the
sentinel `"n/a"` — and the rendering logic treats a stored `"n/a"` exactly
like any successfully fetched value, displaying it in the mnemonic node. -/
theorem fetchMnemonic_never_rejected (accounts : List Account) (accountName : String) :
    fetchMnemonic accounts accountName ≠ POutcome.rejected ∧
    fetchMnemonic accounts accountName = .resolved (fetchValue accounts accountName) ∧
    (accounts.find? (fun acc => acc.name == accountName) = none →
      fetchValue accounts accountName = "n/a") ∧
    (∀ s : State, s.mnemonic = some "n/a" →
      (render s).mnemonicNode = some "n/a") := by
  refine ⟨?_, ?_, ?_, ?_⟩
  · cases h : accounts.find? (fun acc => acc.name == accountName) <;>
      simp [fetchMnemonic, h]
  · cases h : accounts.find? (fun acc => acc.name == accountName) <;>
      simp [fetchMnemonic, fetchValue, h]
  · intro h
    simp [fetchValue, h]
  · intro s hm
    simp only [render, hm]
    decide

/-- Witness for C8: the empty table has no record for ghost, the lookup
resolves with the sentinel, and a state holding the sentinel renders it. -/
theorem fetchMnemonic_never_rejected_witness :
    ([] : List Account).find? (fun acc => acc.name == "ghost") = none ∧
    fetchValue [] "ghost" = "n/a" ∧
    (render ⟨some "ghost", some "n/a", 0⟩).mnemonicNode = some "n/a" := by
  refine ⟨rfl, ?_, ?_⟩
  · exact (fetchMnemonic_never_rejected [] "ghost").2.2.1 rfl
  · exact (fetchMnemonic_never_rejected [] "ghost").2.2.2 ⟨some "ghost", some "n/a", 0⟩ rfl

/-- Claim C9: the secondary mnemonic text node is rendered with content
`m` exactly when the stored mnemonic is the non-empty string `m`; in
particular a fetched empty mnemonic renders no node at all. -/
theorem mnemonicNode_iff_nonempty (s : State) (m : String) :
    ((render s).mnemonicNode = some m ↔ (s.mnemonic = some m ∧ m ≠ "")) ∧
    (s.mnemonic = some "" → (render s).mnemonicNode = none) := by
  cases hm : s.mnemonic with
  | none => simp [render, hm, truthy]
  | some v =>
    by_cases hv : v = ""
    · subst hv
      simp [render, hm, truthy]
      exact fun hme => hme.symm
    · constructor
      · simp only [render, truthy, hm]
        constructor
        · intro hnode
          rw [if_pos (by simp [hv])] at hnode
          have hvm : v = m := by simpa using hnode
          subst hvm
          exact ⟨rfl, hv⟩
        · intro hr
          obtain ⟨hsm, hne⟩ := hr
          have hvm : v = m := by simpa using hsm
          subst hvm
          rw [if_pos (by simp [hv])]
      · intro hcon
        exact absurd (Option.some.injEq v "" ▸ (by simpa using hcon) : v = "") hv

/-- Witness for C9: a revealed state whose fetched mnemonic is the empty
string renders no mnemonic node. -/
theorem mnemonicNode_iff_nonempty_witness :
    (render ⟨some "alice", some "", 0⟩).mnemonicNode = none :=
  (mnemonicNode_iff_nonempty ⟨some "alice", some "", 0⟩ "zzz").2 rfl

/-- Claim C10: the lookup is deterministic (two outcomes of the same call
coincide) and the run of the event loop is a function of the
`accountName` prop, the value its lookup resolves with, and the event
sequence alone: two configurations agreeing on those produce the same
states and the same render outputs. -/
theorem run_depends_only_on_prop_and_lookup (c1 c2 : Config) (events : List Event)
    (hn : c1.accountName = c2.accountName)
    (hf : fetchValue c1.accounts c1.accountName = fetchValue c2.accounts c2.accountName) :
    (∀ o1 o2 : POutcome, fetchMnemonic c1.accounts c1.accountName = o1 →
      fetchMnemonic c1.accounts c1.accountName = o2 → o1 = o2) ∧
    run c1 events = run c2 events ∧
    render (run c1 events) = render (run c2 events) := by
  have hstep : ∀ (s : State) (e : Event), step c1 s e = step c2 s e :=
    step_congr c1 c2 hn hf
  have hrun : ∀ (evs : List Event) (s : State),
      evs.foldl (step c1) s = evs.foldl (step c2) s := by
    intro evs
    induction evs with
    | nil => intro s; rfl
    | cons e es ih =>
      intro s
      rw [List.foldl_cons, List.foldl_cons, hstep, ih]
  exact ⟨fun o1 o2 h1 h2 => h1.symm.trans h2, hrun events init, by rw [show run c1 events = run c2 events from hrun events init]⟩

/-- Witness for C10: two different accounts tables whose lookup for alice
resolves with the same value yield the same render after revealing and
completing the lookup. -/
theorem run_depends_only_on_prop_and_lookup_witness :
    fetchValue [⟨"alice", "apple"⟩] "alice" =
      fetchValue [⟨"bob", "pear"⟩, ⟨"alice", "apple"⟩] "alice" ∧
    render (run ⟨"alice", [⟨"alice", "apple"⟩]⟩ [.click, .resolve]) =
      render (run ⟨"alice", [⟨"bob", "pear"⟩, ⟨"alice", "apple"⟩]⟩ [.click, .resolve]) := by
  refine ⟨by decide, ?_⟩
  exact (run_depends_only_on_prop_and_lookup ⟨"alice", [⟨"alice", "apple"⟩]⟩
    ⟨"alice", [⟨"bob", "pear"⟩, ⟨"alice", "apple"⟩]⟩ [.click, .resolve]
    rfl (by decide)).2.2

end ShowMnemonic
